import Mathlib

/-!
Verification of the voice receive-side and signaling components of the
dragonbane0/discord.js fork: the `VoiceReceiver` packet pipeline
(decryption nonce construction, RTP header-extension stripping, speaking
timers, stream/decoder tables) and the `VoiceWebSocket` control-channel
state machine (connect/attempt ceiling, heartbeat invariant, send paths).

Buffers are modelled as `List Nat` (byte lists); JavaScript `Map`s as
association lists; timers and streams by explicit handles; external
collaborators (decryption, codec engine, transport) by parameters.
-/

namespace Receiver

/-- Node `src.copy(dst, dstStart, srcStart, srcEnd)`: copies the bytes of
`src` in `[srcStart, srcEnd)` into `dst` starting at `dstStart`, clamped to
the target capacity; the target keeps its length. -/
def bufCopy (src dst : List Nat) (dstStart srcStart srcEnd : Nat) : List Nat :=
  let piece := ((src.take srcEnd).drop srcStart).take (dst.length - dstStart)
  dst.take dstStart ++ piece ++ dst.drop (dstStart + piece.length)

/-- The negotiated encryption mode string read from
`voiceConnection.authentication.encryptionMode`: the two recognised values,
and any other string which falls to the legacy default branch. -/
inductive EncryptionMode
  | xsalsa20_poly1305_lite
  | xsalsa20_poly1305_suffix
  | legacyDefault
  deriving DecidableEq, Repr

open EncryptionMode

/-- The module-level shared nonce buffer: `Buffer.alloc(24); nonce.fill(0)`. -/
def nonceInit : List Nat := List.replicate 24 0

/-- The nonce-buffer mutation performed by `handlePacket` for one datagram
`msg`: `lite` copies the last 4 bytes to the front of the shared buffer,
`suffix` the last 24 bytes, and the default branch the first 12 bytes; the
rest of the 24-byte buffer is left as previous packets wrote it. -/
def updateNonce (mode : EncryptionMode) (msg buf : List Nat) : List Nat :=
  match mode with
  | xsalsa20_poly1305_lite => bufCopy msg buf 0 (msg.length - 4) msg.length
  | xsalsa20_poly1305_suffix => bufCopy msg buf 0 (msg.length - 24) msg.length
  | legacyDefault => bufCopy msg buf 0 0 12

/-- The ciphertext slice `msg.slice(12, end)` chosen by `handlePacket`:
`end` is `length - 4` in lite mode, `length - 24` in suffix mode, and
`undefined` (slice to the end) in the default branch. -/
def cipherSlice (mode : EncryptionMode) (msg : List Nat) : List Nat :=
  match mode with
  | xsalsa20_poly1305_lite => (msg.take (msg.length - 4)).drop 12
  | xsalsa20_poly1305_suffix => (msg.take (msg.length - 24)).drop 12
  | legacyDefault => msg.drop 12

/-- The nonce buffer obtained after processing a history of datagrams (each
with the mode in force at the time) starting from the zero-filled shared
buffer. -/
def nonceAfter (pkts : List (EncryptionMode × List Nat)) : List Nat :=
  pkts.foldl (fun buf p => updateNonce p.1 p.2 buf) nonceInit

/-- The nonce the spec claims for a single datagram: mode-dependent slice,
zero-padded to 24 bytes. -/
def specNonce (mode : EncryptionMode) (msg : List Nat) : List Nat :=
  match mode with
  | xsalsa20_poly1305_lite => msg.drop (msg.length - 4) ++ List.replicate 20 0
  | xsalsa20_poly1305_suffix => msg.drop (msg.length - 24)
  | legacyDefault => msg.take 12 ++ List.replicate 12 0

/-- Datagram length precondition per mode: `handlePacket` is only reached
for datagrams of at least 12 bytes (`readUInt32BE(8)` would throw earlier),
and suffix mode needs 24 trailing nonce bytes. -/
def lenOK (mode : EncryptionMode) (msg : List Nat) : Prop :=
  match mode with
  | xsalsa20_poly1305_lite => 12 ≤ msg.length
  | xsalsa20_poly1305_suffix => 24 ≤ msg.length
  | legacyDefault => 12 ≤ msg.length

/-- The padding region of the shared buffer that a given mode does not
write: bytes `[4, 24)` for lite, `[12, 24)` for the default mode, nothing
for suffix. -/
def padOK (mode : EncryptionMode) (buf : List Nat) : Prop :=
  match mode with
  | xsalsa20_poly1305_lite => buf.drop 4 = List.replicate 20 0
  | xsalsa20_poly1305_suffix => True
  | legacyDefault => buf.drop 12 = List.replicate 12 0

/-- The ciphertext written as the spec words it: the bytes of the interval
`[12, length − 4)`, `[12, length − 24)` or `[12, length)` of the datagram. -/
def specCipher (mode : EncryptionMode) (msg : List Nat) : List Nat :=
  match mode with
  | EncryptionMode.xsalsa20_poly1305_lite => (msg.drop 12).take (msg.length - 16)
  | EncryptionMode.xsalsa20_poly1305_suffix => (msg.drop 12).take (msg.length - 36)
  | EncryptionMode.legacyDefault => msg.drop 12

open EncryptionMode

theorem bufCopy_zero (src dst : List Nat) (s e : Nat)
    (h1 : ((src.take e).drop s).length ≤ dst.length) :
    bufCopy src dst 0 s e =
      (src.take e).drop s ++ dst.drop ((src.take e).drop s).length := by
  unfold bufCopy
  simp only [Nat.sub_zero, List.take_take, List.take_nil, List.take_zero, List.nil_append,
    Nat.zero_add]
  rw [List.take_of_length_le h1]

theorem updateNonce_eq (mode : EncryptionMode) (msg buf : List Nat)
    (hb : buf.length = 24) (hp : padOK mode buf) (hl : lenOK mode msg) :
    updateNonce mode msg buf = specNonce mode msg := by
  cases mode with
  | xsalsa20_poly1305_lite =>
    simp only [lenOK] at hl
    simp only [padOK] at hp
    have hlen : ((msg.take msg.length).drop (msg.length - 4)).length = 4 := by
      simp; omega
    rw [updateNonce, bufCopy_zero _ _ _ _ (by rw [hlen, hb]; omega), hlen]
    simp only [List.take_length, specNonce, hp]
  | xsalsa20_poly1305_suffix =>
    simp only [lenOK] at hl
    have hlen : ((msg.take msg.length).drop (msg.length - 24)).length = 24 := by
      simp; omega
    rw [updateNonce, bufCopy_zero _ _ _ _ (by rw [hlen, hb]), hlen]
    simp only [List.take_length, specNonce, List.drop_eq_nil_of_le (le_of_eq hb),
      List.append_nil]
  | legacyDefault =>
    simp only [lenOK] at hl
    simp only [padOK] at hp
    have hlen : ((msg.take 12).drop 0).length = 12 := by simp; omega
    rw [updateNonce, bufCopy_zero _ _ _ _ (by rw [hlen, hb]; omega), hlen]
    simp only [List.drop_zero, specNonce, hp]

theorem specNonce_length (mode : EncryptionMode) (msg : List Nat) (hl : lenOK mode msg) :
    (specNonce mode msg).length = 24 := by
  cases mode <;> simp only [lenOK] at hl <;>
    simp only [specNonce, List.length_append, List.length_drop, List.length_replicate,
      List.length_take] <;> omega

theorem padOK_specNonce (mode : EncryptionMode) (msg : List Nat) (hl : lenOK mode msg) :
    padOK mode (specNonce mode msg) := by
  cases mode with
  | xsalsa20_poly1305_lite =>
    simp only [lenOK] at hl
    simp only [padOK, specNonce]
    rw [List.drop_append_of_le_length (by simp; omega)]
    simp; omega
  | xsalsa20_poly1305_suffix => trivial
  | legacyDefault =>
    simp only [lenOK] at hl
    simp only [padOK, specNonce]
    rw [List.drop_append_of_le_length (by simp; omega)]
    simp

theorem nonceFold_inv (mode : EncryptionMode) (hist : List (List Nat)) :
    ∀ buf : List Nat, buf.length = 24 → padOK mode buf →
      (∀ m ∈ hist, lenOK mode m) →
      ((hist.map fun m => (mode, m)).foldl (fun b p => updateNonce p.1 p.2 b) buf).length = 24 ∧
        padOK mode ((hist.map fun m => (mode, m)).foldl (fun b p => updateNonce p.1 p.2 b) buf) := by
  induction hist with
  | nil => intro buf hb hp _; exact ⟨hb, hp⟩
  | cons m hist ih =>
    intro buf hb hp hh
    have hm : lenOK mode m := hh m (List.mem_cons_self m hist)
    have hstep : updateNonce mode m buf = specNonce mode m := updateNonce_eq mode m buf hb hp hm
    simp only [List.map_cons, List.foldl_cons]
    rw [hstep]
    exact ih (specNonce mode m) (specNonce_length mode m hm) (padOK_specNonce mode m hm)
      (fun x hx => hh x (List.mem_cons_of_mem m hx))

theorem cipherSlice_eq (mode : EncryptionMode) (msg : List Nat) :
    cipherSlice mode msg = specCipher mode msg := by
  cases mode with
  | xsalsa20_poly1305_lite =>
    simp only [cipherSlice, specCipher, List.drop_take]
    congr 1
  | xsalsa20_poly1305_suffix =>
    simp only [cipherSlice, specCipher, List.drop_take]
    congr 1
  | legacyDefault => rfl

theorem padOK_init (mode : EncryptionMode) : padOK mode nonceInit := by
  cases mode <;> simp only [padOK, nonceInit] <;> decide

/-- C1 (corrected): for every datagram the ciphertext is built exactly by the
mode rule, and — provided every packet processed before it (the nonce buffer
is a single module-level buffer shared by all packets) used the same
encryption mode — the decryption nonce is exactly the mode slice rule with
all padding bytes zero. -/
theorem C1_nonce_and_cipher_mode_rule (mode : EncryptionMode) (hist : List (List Nat))
    (msg : List Nat) (hh : ∀ m ∈ hist, lenOK mode m) (hm : lenOK mode msg) :
    updateNonce mode msg (nonceAfter (hist.map fun m => (mode, m))) = specNonce mode msg ∧
      cipherSlice mode msg = specCipher mode msg := by
  have h := nonceFold_inv mode hist nonceInit (by decide) (padOK_init mode) hh
  exact ⟨updateNonce_eq mode msg _ h.1 h.2 hm, cipherSlice_eq mode msg⟩

/-- Witness for C1: a lite-mode datagram processed after one lite-mode
datagram gets the nonce `last4 ++ 20 zero bytes` and the ciphertext
`bytes [12, 16)`. -/
theorem C1_nonce_witness :
    updateNonce EncryptionMode.xsalsa20_poly1305_lite
        (List.replicate 12 2 ++ [3, 4, 5, 6])
        (nonceAfter [(EncryptionMode.xsalsa20_poly1305_lite,
          List.replicate 12 1 ++ [5, 6, 7, 8])]) =
      specNonce EncryptionMode.xsalsa20_poly1305_lite (List.replicate 12 2 ++ [3, 4, 5, 6]) ∧
      cipherSlice EncryptionMode.xsalsa20_poly1305_lite (List.replicate 12 2 ++ [3, 4, 5, 6]) =
        specCipher EncryptionMode.xsalsa20_poly1305_lite (List.replicate 12 2 ++ [3, 4, 5, 6]) :=
  C1_nonce_and_cipher_mode_rule EncryptionMode.xsalsa20_poly1305_lite
    [List.replicate 12 1 ++ [5, 6, 7, 8]] (List.replicate 12 2 ++ [3, 4, 5, 6])
    (fun m hm => by
      rw [List.mem_singleton] at hm
      subst hm
      exact (by decide : (12 : Nat) ≤ (List.replicate 12 1 ++ [5, 6, 7, 8]).length))
    (by exact (by decide : (12 : Nat) ≤ (List.replicate 12 2 ++ [3, 4, 5, 6]).length))

/-- C1 as stated is false: the nonce buffer is shared across packets and
only partially overwritten, so after a suffix-mode packet filled it with
ones, a lite-mode packet gets a nonce whose 20 padding bytes are ones, not
zeros. -/
theorem C1_padding_counterexample :
    updateNonce EncryptionMode.xsalsa20_poly1305_lite
        (List.replicate 12 0 ++ [9, 9, 9, 9])
        (nonceAfter [(EncryptionMode.xsalsa20_poly1305_suffix, List.replicate 36 1)]) ≠
      specNonce EncryptionMode.xsalsa20_poly1305_lite (List.replicate 12 0 ++ [9, 9, 9, 9]) := by
  decide

/-- The cursor advance of one loop iteration of the header-extension
stripper: `const byte = data[offset]; offset++; if (byte === 0) continue;
offset += 1 + (0b1111 & (byte >> 4));` — reading past the end yields
`undefined`, which is not `0` and shifts to `0`. -/
def extAdvance (b : Option Nat) : Nat :=
  match b with
  | some 0 => 1
  | some byte => 2 + (15 &&& (byte >>> 4))
  | none => 2

/-- The stripping loop: iterate `headerExtensionLength` elements from the
given offset. -/
def stripLoop (data : List Nat) (offset : Nat) : Nat → Nat
  | 0 => offset
  | n + 1 => stripLoop data (offset + extAdvance (data.get? offset)) n

/-- Node `data.readUInt16BE(i)` (only used in-bounds here). -/
def readUInt16BE (data : List Nat) (i : Nat) : Nat :=
  256 * data.getD i 0 + data.getD (i + 1) 0

/-- RTP one-byte header-extension stripping as `handlePacket` performs it:
on the `0xBEDE` marker with more than 4 bytes, read the element count at
offset 2, run the loop from offset 4, skip one extra utility byte, and keep
the rest; otherwise the payload is returned whole. -/
def stripHeaderExtension (data : List Nat) : List Nat :=
  if data.getD 0 0 = 0xBE ∧ data.getD 1 0 = 0xDE ∧ 4 < data.length then
    data.drop (stripLoop data 4 (readUInt16BE data 2) + 1)
  else data

/-- Modelled on the spec sentence with the nibble corrected to the high
nibble: a zero leading byte advances the cursor 1 byte; a non-zero leading
byte advances it 1 byte plus one more than the low 4 bits of `byte >> 4`. -/
def specExtAdvanceHigh (b : Option Nat) : Nat :=
  match b with
  | some 0 => 1
  | some byte => 2 + (byte >>> 4) % 16
  | none => 2

/-- The claimed final cursor: starting at offset 4, iterate exactly `count`
elements. -/
def specCursorHigh (data : List Nat) (count : Nat) : Nat :=
  (fun off => off + specExtAdvanceHigh (data.get? off))^[count] 4

/-- The raw codec frame as the spec describes it (high-nibble advance): on
the marker, drop everything up to the final cursor plus one utility byte;
otherwise the whole payload. -/
def specStripHigh (data : List Nat) : List Nat :=
  if data.getD 0 0 = 0xBE ∧ data.getD 1 0 = 0xDE ∧ 4 < data.length then
    data.drop (specCursorHigh data (readUInt16BE data 2) + 1)
  else data

/-- The raw codec frame as claim C2 literally states it: the element
advance uses the leading byte's low 4 bits. -/
def claimStripLow (data : List Nat) : List Nat :=
  if data.getD 0 0 = 0xBE ∧ data.getD 1 0 = 0xDE ∧ 4 < data.length then
    data.drop
      ((fun off =>
          off + match data.get? off with
                | some 0 => 1
                | some byte => 2 + byte % 16
                | none => 2)^[readUInt16BE data 2] 4 + 1)
  else data

theorem land_fifteen (x : Nat) : 15 &&& x = x % 16 := by
  have h := Nat.and_pow_two_sub_one_eq_mod x 4
  simpa [Nat.and_comm] using h

theorem extAdvance_eq (b : Option Nat) : extAdvance b = specExtAdvanceHigh b := by
  match b with
  | none => rfl
  | some 0 => rfl
  | some (n + 1) =>
    show 2 + (15 &&& ((n + 1) >>> 4)) = 2 + ((n + 1) >>> 4) % 16
    rw [land_fifteen]

theorem stripLoop_eq_iterate (data : List Nat) :
    ∀ (n offset : Nat),
      stripLoop data offset n =
        (fun off => off + specExtAdvanceHigh (data.get? off))^[n] offset := by
  intro n
  induction n with
  | zero => intro offset; rfl
  | succ n ih =>
    intro offset
    rw [stripLoop, Function.iterate_succ_apply, ih, extAdvance_eq]

/-- C2 (corrected): header-extension stripping follows the documented rule
with the element length taken from the leading byte's high 4 bits, and a
payload without the marker (or of at most 4 bytes) passes through whole. -/
theorem C2_extension_stripping (data : List Nat) :
    stripHeaderExtension data = specStripHigh data ∧
      (¬(data.getD 0 0 = 0xBE ∧ data.getD 1 0 = 0xDE ∧ 4 < data.length) →
        stripHeaderExtension data = data) := by
  constructor
  · unfold stripHeaderExtension specStripHigh
    by_cases h : data.getD 0 0 = 0xBE ∧ data.getD 1 0 = 0xDE ∧ 4 < data.length
    · rw [if_pos h, if_pos h, stripLoop_eq_iterate, specCursorHigh]
    · rw [if_neg h, if_neg h]
  · intro h
    unfold stripHeaderExtension
    rw [if_neg h]

/-- Witness for C2: a marked payload with one padding element and one real
element (leading byte `0x21`: high nibble 2) yields the frame after the
elements plus the utility byte; an unmarked payload passes through. -/
theorem C2_extension_stripping_witness :
    stripHeaderExtension [0xBE, 0xDE, 0, 2, 0, 0x21, 1, 2, 3, 7, 8, 9] =
        specStripHigh [0xBE, 0xDE, 0, 2, 0, 0x21, 1, 2, 3, 7, 8, 9] ∧
      ¬([1, 2, 3].getD 0 0 = 0xBE ∧ [1, 2, 3].getD 1 0 = 0xDE ∧ 4 < [1, 2, 3].length) ∧
      stripHeaderExtension [1, 2, 3] = [1, 2, 3] :=
  ⟨(C2_extension_stripping [0xBE, 0xDE, 0, 2, 0, 0x21, 1, 2, 3, 7, 8, 9]).1,
    by decide,
    (C2_extension_stripping [1, 2, 3]).2 (by decide)⟩

/-- C2 as stated is false: on the element leading byte `0x10` (low nibble
0, high nibble 1) the code advances by the high nibble, so the frame differs
from the low-nibble rule the claim states. -/
theorem C2_low_nibble_counterexample :
    stripHeaderExtension [0xBE, 0xDE, 0, 1, 0x10, 1, 2, 3, 4, 5] ≠
      claimStripLow [0xBE, 0xDE, 0, 1, 0x10, 1, 2, 3, 4, 5] := by
  decide

/-- A speaking notification emitted through `voiceConnection.onSpeaking`:
`speaking: true` on the first packet for an identifier with no pending
timer, `speaking: false` when a 70 ms timer fires. -/
inductive Sig
  | start
  | stop
  deriving DecidableEq, Repr

/-- The speaking-timer behaviour of `_listener` for one source identifier,
run over the packet arrival times (in ms, increasing): with no pending
timer a packet emits start-of-speaking and arms a timer due 70 ms later;
with a pending timer that has not yet fired the packet refreshes it to 70
ms from now; a pending timer whose deadline has passed fired in the gap,
emitting stop-of-speaking and deleting the entry, so the packet starts a
fresh speaking transition. -/
def speakRun : List Nat → Option Nat → List Sig
  | [], _ => []
  | t :: ts, none => Sig.start :: speakRun ts (some (t + 70))
  | t :: ts, some d =>
    if d ≤ t then Sig.stop :: Sig.start :: speakRun ts (some (t + 70))
    else speakRun ts (some (t + 70))

theorem speakRun_close (rest : List Nat) :
    ∀ (ts : List Nat) (t : Nat), List.Chain' (fun a b => b < a + 70) (t :: ts) →
      speakRun (ts ++ rest) (some (t + 70)) = speakRun rest (some (ts.getLastD t + 70)) := by
  intro ts
  induction ts with
  | nil => intro t _; rfl
  | cons u ts ih =>
    intro t hchain
    have hu : u < t + 70 := (List.chain'_cons.mp hchain).1
    have htail : List.Chain' (fun a b => b < a + 70) (u :: ts) :=
      (List.chain'_cons.mp hchain).2
    simp only [List.cons_append, List.append_eq, speakRun, if_neg (by omega : ¬ t + 70 ≤ u)]
    rw [ih u htail, List.getLastD_cons]

/-- C3 (confirmed): packets from one source identifier spaced under 70 ms
apart yield exactly one start-of-speaking notification and no stop; once a
gap of at least 70 ms occurs, exactly one stop-of-speaking is emitted
before the start triggered by the packet after the gap. -/
theorem C3_speaking_timer (t : Nat) (ts1 : List Nat) (u : Nat) (ts2 : List Nat)
    (hclose : List.Chain' (fun a b => b < a + 70) (t :: ts1))
    (hgap : ts1.getLastD t + 70 ≤ u) :
    speakRun (t :: ts1) none = [Sig.start] ∧
      speakRun ((t :: ts1) ++ u :: ts2) none =
        Sig.start :: Sig.stop :: Sig.start :: speakRun ts2 (some (u + 70)) := by
  constructor
  · have h := speakRun_close [] ts1 t hclose
    simp only [List.append_nil] at h
    show Sig.start :: speakRun ts1 (some (t + 70)) = [Sig.start]
    rw [h]
    rfl
  · show Sig.start :: speakRun (ts1 ++ u :: ts2) (some (t + 70)) = _
    rw [speakRun_close (u :: ts2) ts1 t hclose]
    simp only [speakRun, if_pos hgap]

/-- Witness for C3: packets at 0, 50 and 110 ms (gaps under 70 ms) then a
packet at 200 ms (gap 90 ms from the last). -/
theorem C3_speaking_timer_witness :
    speakRun [0, 50, 110] none = [Sig.start] ∧
      speakRun ([0, 50, 110] ++ [200]) none =
        Sig.start :: Sig.stop :: Sig.start :: speakRun [] (some (200 + 70)) :=
  C3_speaking_timer 0 [50, 110] 200 []
    (List.chain'_cons.mpr ⟨by omega, List.chain'_cons.mpr ⟨by omega, List.chain'_singleton _⟩⟩)
    (by decide)


abbrev UserId := Nat

/-- A pooled decoder instance held in `opusEncoders`: `eid` identifies the
instance fetched from the engine pool; `destroyed` records that
`encoder.destroy()` has been called on the object. -/
structure OpusEncoder where
  eid : Nat
  destroyed : Bool
  deriving DecidableEq, Repr

/-- The mutable tables of a `VoiceReceiver` plus its attachment and
destruction flags. Streams are identified by the handle of the `Readable`
they were created with. -/
structure RecvState where
  pcmListenerCount : Nat
  pcmStreams : List (UserId × Nat)
  opusStreams : List (UserId × Nat)
  opusEncoders : List (UserId × OpusEncoder)
  speakingTimeouts : List (Nat × Nat)
  disconnectTimer : Option Nat
  listenerAttached : Bool
  destroyed : Bool
  deriving DecidableEq, Repr

/-- JavaScript `Map.get`: the value bound to the first matching key, if
any. -/
def mapGet {β : Type} (k : UserId) : List (UserId × β) → Option β
  | [] => none
  | p :: l => if p.1 = k then some p.2 else mapGet k l

/-- JavaScript `Map.set`: replace the value at an existing key, else append
the binding in insertion order. -/
def mapSet {β : Type} (k : UserId) (v : β) (l : List (UserId × β)) : List (UserId × β) :=
  if (mapGet k l).isSome then l.map (fun p => if p.1 = k then (k, v) else p)
  else l ++ [(k, v)]

/-- JavaScript `Map.delete`. -/
def mapDelete {β : Type} (k : UserId) (l : List (UserId × β)) : List (UserId × β) :=
  l.filter (fun p => p.1 != k)

/-- An observable side effect of the receiver on its collaborators:
fetching a decoder from the engine pool, emitting a `decode` warning,
pushing a chunk (or end-of-stream when `eos`) to a stream handle, emitting
the `pcm` event, destroying a decoder instance, or detaching the datagram
listener. -/
inductive RAction
  | fetchEncoder (uid : UserId)
  | warnDecode
  | pushStream (sid : Nat) (eos : Bool)
  | emitPcm
  | destroyEncoder (eid : Nat)
  | removeListener
  deriving DecidableEq, Repr

/-- Result of `encoder.decode(data)` as delivered by `_tryDecode`. -/
inductive DecodeOutcome
  | ok (pcm : List Nat)
  | err
  deriving DecidableEq, Repr

/-- The decode section of `handlePacket` (the block guarded by
`listenerCount('pcm') > 0 || pcmStreams.size > 0`): fetch-or-create the
speaker's decoder, decode, warn-and-return on failure, push to the
speaker's pcm stream if open and emit the `pcm` event on success. -/
def decodeSection (s : RecvState) (uid : UserId) (fresh : OpusEncoder)
    (outcome : DecodeOutcome) : RecvState × List RAction :=
  if 0 < s.pcmListenerCount ∨ 0 < s.pcmStreams.length then
    let step :=
      match mapGet uid s.opusEncoders with
      | some _ => (s, ([] : List RAction))
      | none => ({ s with opusEncoders := mapSet uid fresh s.opusEncoders },
          [RAction.fetchEncoder uid])
    match outcome with
    | DecodeOutcome.err => (step.1, step.2 ++ [RAction.warnDecode])
    | DecodeOutcome.ok _ =>
      match mapGet uid step.1.pcmStreams with
      | some sid => (step.1, step.2 ++ [RAction.pushStream sid false, RAction.emitPcm])
      | none => (step.1, step.2 ++ [RAction.emitPcm])
  else (s, [])

/-- `createOpusStream`: resolve the user (the resolver's verdict is the
`resolved` argument), fail if unresolved or already open, else register a
fresh `Readable` under the user's id and return it. -/
def createOpusStream (resolved : Option UserId) (freshSid : Nat) (s : RecvState) :
    Except String (RecvState × Nat) :=
  match resolved with
  | none => Except.error "Could not resolve the user to create Opus stream."
  | some uid =>
    if (mapGet uid s.opusStreams).isSome then
      Except.error "There is already an existing stream for that user."
    else
      Except.ok ({ s with opusStreams := mapSet uid freshSid s.opusStreams }, freshSid)

/-- `createPCMStream`: same shape as `createOpusStream` over the pcm
table. -/
def createPCMStream (resolved : Option UserId) (freshSid : Nat) (s : RecvState) :
    Except String (RecvState × Nat) :=
  match resolved with
  | none => Except.error "Could not resolve the user to create PCM stream."
  | some uid =>
    if (mapGet uid s.pcmStreams).isSome then
      Except.error "There is already an existing stream for that user."
    else
      Except.ok ({ s with pcmStreams := mapSet uid freshSid s.pcmStreams }, freshSid)

/-- `destroy()`: detach the datagram listener, end and drop every pcm and
opus stream, destroy and drop every decoder, and mark the receiver
destroyed. The speaking timers, the liveness timer and the queue table are
not touched. -/
def destroy (s : RecvState) : RecvState × List RAction :=
  ({ s with listenerAttached := false, destroyed := true,
            pcmStreams := [], opusStreams := [], opusEncoders := [] },
    RAction.removeListener ::
      (s.pcmStreams.map fun p => RAction.pushStream p.2 true) ++
      (s.opusStreams.map fun p => RAction.pushStream p.2 true) ++
      (s.opusEncoders.map fun p => RAction.destroyEncoder p.2.eid))

/-- `stoppedSpeaking(user)`: end and drop the user's opus and pcm streams
if open, and call `destroy()` on the user's decoder instance — without
deleting its table entry, mirroring the object mutation. -/
def stoppedSpeaking (s : RecvState) (uid : UserId) : RecvState × List RAction :=
  let opusStream := mapGet uid s.opusStreams
  let pcmStream := mapGet uid s.pcmStreams
  let opusEncoder := mapGet uid s.opusEncoders
  let s1 := { s with opusStreams := if opusStream.isSome then mapDelete uid s.opusStreams
                      else s.opusStreams,
                     pcmStreams := if pcmStream.isSome then mapDelete uid s.pcmStreams
                      else s.pcmStreams }
  let acts := (match opusStream with
      | some sid => [RAction.pushStream sid true]
      | none => []) ++
    (match pcmStream with
      | some sid => [RAction.pushStream sid true]
      | none => [])
  match opusEncoder with
  | some enc =>
    ({ s1 with opusEncoders := mapSet uid { enc with destroyed := true } s1.opusEncoders },
      acts ++ [RAction.destroyEncoder enc.eid])
  | none => (s1, acts)

theorem mapGet_of_none_append {β : Type} (k : UserId) (v : β) (l : List (UserId × β))
    (h : mapGet k l = none) : mapGet k (l ++ [(k, v)]) = some v := by
  induction l with
  | nil => simp [mapGet]
  | cons p l ih =>
    by_cases hk : p.1 = k
    · simp [mapGet, hk] at h
    · simp only [mapGet, if_neg hk] at h
      simp only [List.cons_append, mapGet, if_neg hk]
      exact ih h

/-- C4 (corrected): the decode section runs iff there is at least one
global `pcm` subscriber or at least one open decoded-audio stream for any
speaker (not only the one being processed); when it runs, the decoder is
fetched exactly when the speaker has no table entry, a decode failure
emits the `decode` warning and pushes and emits nothing, and a success
pushes to the speaker's open pcm stream (if any) and always emits the
decoded-audio event. -/
theorem C4_decode_gating (s : RecvState) (uid : UserId) (fresh : OpusEncoder)
    (outcome : DecodeOutcome) :
    (¬(0 < s.pcmListenerCount ∨ 0 < s.pcmStreams.length) →
      decodeSection s uid fresh outcome = (s, [])) ∧
    ((0 < s.pcmListenerCount ∨ 0 < s.pcmStreams.length) →
      (((mapGet uid s.opusEncoders).isSome →
          RAction.fetchEncoder uid ∉ (decodeSection s uid fresh outcome).2 ∧
          (decodeSection s uid fresh outcome).1 = s) ∧
        (mapGet uid s.opusEncoders = none →
          RAction.fetchEncoder uid ∈ (decodeSection s uid fresh outcome).2 ∧
          (mapGet uid (decodeSection s uid fresh outcome).1.opusEncoders) = some fresh) ∧
        (outcome = DecodeOutcome.err →
          RAction.warnDecode ∈ (decodeSection s uid fresh outcome).2 ∧
          RAction.emitPcm ∉ (decodeSection s uid fresh outcome).2 ∧
          ∀ sid b, RAction.pushStream sid b ∉ (decodeSection s uid fresh outcome).2) ∧
        (∀ pcm, outcome = DecodeOutcome.ok pcm →
          RAction.emitPcm ∈ (decodeSection s uid fresh outcome).2 ∧
          (∀ sid, mapGet uid s.pcmStreams = some sid →
            RAction.pushStream sid false ∈ (decodeSection s uid fresh outcome).2) ∧
          (mapGet uid s.pcmStreams = none →
            ∀ sid b, RAction.pushStream sid b ∉ (decodeSection s uid fresh outcome).2)))) := by
  constructor
  · intro hcond
    simp only [decodeSection, if_neg hcond]
  · intro hcond
    refine ⟨?_, ?_, ?_, ?_⟩
    · intro henc
      obtain ⟨e, he⟩ := Option.isSome_iff_exists.mp henc
      cases outcome with
      | err => simp [decodeSection, if_pos hcond, he]
      | ok pcm =>
        cases hps : mapGet uid s.pcmStreams with
        | some sid => simp [decodeSection, if_pos hcond, he, hps]
        | none => simp [decodeSection, if_pos hcond, he, hps]
    · intro henc
      have hlk : mapGet uid (mapSet uid fresh s.opusEncoders) = some fresh := by
        simp only [mapSet, henc, Option.isSome_none, Bool.false_eq_true, if_false]
        exact mapGet_of_none_append uid fresh s.opusEncoders henc
      cases outcome with
      | err => simp [decodeSection, if_pos hcond, henc, hlk]
      | ok pcm =>
        cases hps : mapGet uid s.pcmStreams with
        | some sid => simp [decodeSection, if_pos hcond, henc, hps, hlk]
        | none => simp [decodeSection, if_pos hcond, henc, hps, hlk]
    · rintro rfl
      cases henc : mapGet uid s.opusEncoders with
      | some e => simp [decodeSection, if_pos hcond, henc]
      | none => simp [decodeSection, if_pos hcond, henc]
    · rintro pcm rfl
      cases henc : mapGet uid s.opusEncoders with
      | some e =>
        cases hps : mapGet uid s.pcmStreams with
        | some sid =>
          refine ⟨?_, ?_, ?_⟩ <;> simp [decodeSection, if_pos hcond, henc, hps]
        | none =>
          refine ⟨?_, ?_, ?_⟩ <;> simp [decodeSection, if_pos hcond, henc, hps]
      | none =>
        cases hps : mapGet uid s.pcmStreams with
        | some sid =>
          refine ⟨?_, ?_, ?_⟩ <;> simp [decodeSection, if_pos hcond, henc, hps]
        | none =>
          refine ⟨?_, ?_, ?_⟩ <;> simp [decodeSection, if_pos hcond, henc, hps]

theorem mapGet_set_self {β : Type} (k : UserId) (v : β) (l : List (UserId × β)) :
    mapGet k (mapSet k v l) = some v := by
  unfold mapSet
  split
  · rename_i h
    induction l with
    | nil => simp [mapGet] at h
    | cons p l ih =>
      by_cases hk : p.1 = k
      · simp [mapGet, hk]
      · simp only [mapGet, if_neg hk] at h
        simp only [List.map_cons, if_neg hk, mapGet]
        exact ih h
  · rename_i h
    rw [Option.not_isSome_iff_eq_none] at h
    exact mapGet_of_none_append k v l h

theorem mapSet_keys_of_isSome {β : Type} (k : UserId) (v : β) (l : List (UserId × β))
    (h : (mapGet k l).isSome) :
    (mapSet k v l).map Prod.fst = l.map Prod.fst := by
  unfold mapSet
  rw [if_pos h, List.map_map]
  apply List.map_congr_left
  intro p _
  by_cases hk : p.1 = k
  · simp [Function.comp, hk]
  · simp [Function.comp, hk]

theorem mapGet_delete_self {β : Type} (k : UserId) (l : List (UserId × β)) :
    mapGet k (mapDelete k l) = none := by
  induction l with
  | nil => rfl
  | cons p l ih =>
    by_cases hk : p.1 = k
    · have hb : (p.1 != k) = false := by simp [hk]
      simpa [mapDelete, List.filter_cons, hb] using ih
    · have hb : (p.1 != k) = true := by simp [hk]
      simp only [mapDelete, List.filter_cons, hb, if_true, mapGet, if_neg hk]
      simpa [mapDelete] using ih

theorem mapGet_none_not_mem {β : Type} (k : UserId) (l : List (UserId × β))
    (h : mapGet k l = none) : ¬ k ∈ l.map Prod.fst := by
  induction l with
  | nil => simp
  | cons p l ih =>
    by_cases hk : p.1 = k
    · simp [mapGet, hk] at h
    · simp only [mapGet, if_neg hk] at h
      simp only [List.map_cons, List.mem_cons]
      push_neg
      exact ⟨fun he => hk he.symm, ih h⟩

/-- A receiver with one global pcm subscriber, an open pcm stream for
speaker 1 and no decoder yet. -/
def gatingWitnessState : RecvState :=
  { pcmListenerCount := 1, pcmStreams := [(1, 4)], opusStreams := [], opusEncoders := [],
    speakingTimeouts := [], disconnectTimer := none, listenerAttached := true,
    destroyed := false }

/-- Witness for C4: with a pcm subscriber present, the packet for speaker 1
fetches a decoder, pushes to the open stream 4 and emits the pcm event. -/
theorem C4_decode_gating_witness :
    RAction.fetchEncoder 1 ∈
        (decodeSection gatingWitnessState 1 ⟨7, false⟩ (DecodeOutcome.ok [])).2 ∧
      RAction.emitPcm ∈
        (decodeSection gatingWitnessState 1 ⟨7, false⟩ (DecodeOutcome.ok [])).2 ∧
      RAction.pushStream 4 false ∈
        (decodeSection gatingWitnessState 1 ⟨7, false⟩ (DecodeOutcome.ok [])).2 := by
  have h := (C4_decode_gating gatingWitnessState 1 ⟨7, false⟩ (DecodeOutcome.ok [])).2
    (Or.inl (by decide))
  exact ⟨(h.2.1 (by decide)).1, (h.2.2.2 [] rfl).1, (h.2.2.2 [] rfl).2.1 4 (by decide)⟩

/-- A receiver with no pcm subscriber and no decoded-audio stream for
speaker 1, but an open decoded-audio stream for speaker 2. -/
def gatingMismatchState : RecvState :=
  { pcmListenerCount := 0, pcmStreams := [(2, 5)], opusStreams := [], opusEncoders := [],
    speakingTimeouts := [], disconnectTimer := none, listenerAttached := true,
    destroyed := false }

/-- C4 as stated is false: `handlePacket` gates decoding on
`pcmStreams.size > 0` — any speaker's open decoded stream — so a packet for
speaker 1, who has no open decoded stream, is still decoded (and a decoder
fetched for speaker 1) because speaker 2 has one. -/
theorem C4_per_speaker_counterexample :
    ¬(0 < gatingMismatchState.pcmListenerCount ∨
        (mapGet 1 gatingMismatchState.pcmStreams).isSome = true) ∧
      RAction.fetchEncoder 1 ∈
        (decodeSection gatingMismatchState 1 ⟨7, false⟩ (DecodeOutcome.ok [])).2 := by
  decide

/-- C5 (confirmed): stream creation fails synchronously on an unresolvable
user and on an already-open stream of the same kind (the registered table
is untouched), registers and returns a fresh push-driven stream otherwise,
and preserves the at-most-one-stream-per-identity invariant (no duplicate
identity keys) for both kinds. -/
theorem C5_stream_creation (s : RecvState) (uid : UserId) (sid : Nat) :
    (createOpusStream none sid s =
        Except.error "Could not resolve the user to create Opus stream." ∧
      createPCMStream none sid s =
        Except.error "Could not resolve the user to create PCM stream.") ∧
    ((mapGet uid s.opusStreams).isSome →
      createOpusStream (some uid) sid s =
        Except.error "There is already an existing stream for that user.") ∧
    ((mapGet uid s.pcmStreams).isSome →
      createPCMStream (some uid) sid s =
        Except.error "There is already an existing stream for that user.") ∧
    (mapGet uid s.opusStreams = none →
      createOpusStream (some uid) sid s =
        Except.ok ({ s with opusStreams := s.opusStreams ++ [(uid, sid)] }, sid) ∧
      mapGet uid (s.opusStreams ++ [(uid, sid)]) = some sid ∧
      ((s.opusStreams.map Prod.fst).Nodup →
        ((s.opusStreams ++ [(uid, sid)]).map Prod.fst).Nodup)) ∧
    (mapGet uid s.pcmStreams = none →
      createPCMStream (some uid) sid s =
        Except.ok ({ s with pcmStreams := s.pcmStreams ++ [(uid, sid)] }, sid) ∧
      mapGet uid (s.pcmStreams ++ [(uid, sid)]) = some sid ∧
      ((s.pcmStreams.map Prod.fst).Nodup →
        ((s.pcmStreams ++ [(uid, sid)]).map Prod.fst).Nodup)) := by
  refine ⟨⟨rfl, rfl⟩, ?_, ?_, ?_, ?_⟩
  · intro h
    simp only [createOpusStream, if_pos h]
  · intro h
    simp only [createPCMStream, if_pos h]
  · intro h
    have hns : ¬ (mapGet uid s.opusStreams).isSome = true := by simp [h]
    refine ⟨?_, mapGet_of_none_append uid sid s.opusStreams h, ?_⟩
    · simp [createOpusStream, mapSet, h]
    · intro hnd
      rw [List.map_append, List.nodup_append]
      refine ⟨hnd, List.nodup_singleton _, ?_⟩
      intro a ha hb
      simp only [List.map_cons, List.map_nil, List.mem_singleton] at hb
      exact mapGet_none_not_mem uid s.opusStreams h (hb ▸ ha)
  · intro h
    have hns : ¬ (mapGet uid s.pcmStreams).isSome = true := by simp [h]
    refine ⟨?_, mapGet_of_none_append uid sid s.pcmStreams h, ?_⟩
    · simp [createPCMStream, mapSet, h]
    · intro hnd
      rw [List.map_append, List.nodup_append]
      refine ⟨hnd, List.nodup_singleton _, ?_⟩
      intro a ha hb
      simp only [List.map_cons, List.map_nil, List.mem_singleton] at hb
      exact mapGet_none_not_mem uid s.pcmStreams h (hb ▸ ha)

/-- A receiver with an opus stream already open for identity 1. -/
def oneOpusState : RecvState :=
  { pcmListenerCount := 0, pcmStreams := [], opusStreams := [(1, 4)], opusEncoders := [],
    speakingTimeouts := [], disconnectTimer := none, listenerAttached := true,
    destroyed := false }

/-- Witness for C5: on a receiver with an open opus stream for identity 1,
an unresolved user fails, a second opus stream for identity 1 fails, and a
pcm stream for identity 1 is registered and returned. -/
theorem C5_stream_creation_witness :
    createOpusStream none 9 oneOpusState =
        Except.error "Could not resolve the user to create Opus stream." ∧
      createOpusStream (some 1) 9 oneOpusState =
        Except.error "There is already an existing stream for that user." ∧
      createPCMStream (some 1) 9 oneOpusState =
        Except.ok ({ oneOpusState with pcmStreams := [(1, 9)] }, 9) := by
  have h := C5_stream_creation oneOpusState 1 9
  exact ⟨h.1.1, h.2.1 (by decide), (h.2.2.2.2 (by decide)).1⟩

/-- C8 (corrected): destroy detaches the datagram listener, empties both
stream tables (ending each stream once) and the decoder table (destroying
each decoder once), marks the receiver destroyed, and is idempotent — a
second destroy finds empty tables and releases nothing; but it leaves the
per-source speaking timers and the whole-connection liveness timer in
place. -/
theorem C8_destroy_clears_streams_not_timers (s : RecvState) :
    (destroy s).1.listenerAttached = false ∧
      (destroy s).1.destroyed = true ∧
      (destroy s).1.pcmStreams = [] ∧
      (destroy s).1.opusStreams = [] ∧
      (destroy s).1.opusEncoders = [] ∧
      (destroy s).1.speakingTimeouts = s.speakingTimeouts ∧
      (destroy s).1.disconnectTimer = s.disconnectTimer ∧
      (destroy s).2 = RAction.removeListener ::
        (s.pcmStreams.map fun p => RAction.pushStream p.2 true) ++
        (s.opusStreams.map fun p => RAction.pushStream p.2 true) ++
        (s.opusEncoders.map fun p => RAction.destroyEncoder p.2.eid) ∧
      destroy (destroy s).1 = ((destroy s).1, [RAction.removeListener]) := by
  refine ⟨rfl, rfl, rfl, rfl, rfl, rfl, rfl, rfl, ?_⟩
  simp [destroy]

/-- A receiver holding one speaking timer and a pending liveness timer. -/
def timersState : RecvState :=
  { pcmListenerCount := 0, pcmStreams := [], opusStreams := [], opusEncoders := [],
    speakingTimeouts := [(1, 7)], disconnectTimer := some 3, listenerAttached := true,
    destroyed := false }

/-- C8 as stated is false: `destroy()` never clears `speakingTimeouts` nor
`disconnectTimer`, so after destroying a receiver with a speaking timer for
source 1 and a pending liveness timer both are still registered. -/
theorem C8_timers_counterexample :
    (destroy timersState).1.speakingTimeouts = [(1, 7)] ∧
      (destroy timersState).1.disconnectTimer = some 3 := by
  decide

theorem decodeSection_of_isSome (s : RecvState) (uid : UserId) (fresh : OpusEncoder)
    (outcome : DecodeOutcome) (hcond : 0 < s.pcmListenerCount ∨ 0 < s.pcmStreams.length)
    (e : OpusEncoder) (he : mapGet uid s.opusEncoders = some e) :
    RAction.fetchEncoder uid ∉ (decodeSection s uid fresh outcome).2 ∧
      (decodeSection s uid fresh outcome).1 = s := by
  cases outcome with
  | err => simp [decodeSection, if_pos hcond, he]
  | ok pcm =>
    cases hps : mapGet uid s.pcmStreams with
    | some sid => simp [decodeSection, if_pos hcond, he, hps]
    | none => simp [decodeSection, if_pos hcond, he, hps]

/-- C9 (confirmed): `stoppedSpeaking` drops the identity's entries from
both stream tables but keeps the decoder table entry — it calls
`destroy()` on the decoder object without deleting the entry — so a later
packet for the same identity that must be decoded finds the destroyed
decoder in the table and reuses it instead of fetching a fresh one from
the engine pool. -/
theorem C9_encoder_survives_stop (s : RecvState) (uid : UserId) (enc : OpusEncoder)
    (henc : mapGet uid s.opusEncoders = some enc) :
    mapGet uid (stoppedSpeaking s uid).1.opusStreams = none ∧
      mapGet uid (stoppedSpeaking s uid).1.pcmStreams = none ∧
      (stoppedSpeaking s uid).1.opusEncoders.map Prod.fst = s.opusEncoders.map Prod.fst ∧
      mapGet uid (stoppedSpeaking s uid).1.opusEncoders =
        some { enc with destroyed := true } ∧
      RAction.destroyEncoder enc.eid ∈ (stoppedSpeaking s uid).2 ∧
      (∀ fresh outcome, 0 < (stoppedSpeaking s uid).1.pcmListenerCount →
        RAction.fetchEncoder uid ∉
          (decodeSection (stoppedSpeaking s uid).1 uid fresh outcome).2 ∧
        (decodeSection (stoppedSpeaking s uid).1 uid fresh outcome).1 =
          (stoppedSpeaking s uid).1) := by
  have hstate : (stoppedSpeaking s uid).1 =
      { s with
        opusStreams := if (mapGet uid s.opusStreams).isSome then mapDelete uid s.opusStreams
          else s.opusStreams,
        pcmStreams := if (mapGet uid s.pcmStreams).isSome then mapDelete uid s.pcmStreams
          else s.pcmStreams,
        opusEncoders := mapSet uid { enc with destroyed := true } s.opusEncoders } := by
    simp [stoppedSpeaking, henc]
  have hget : mapGet uid (stoppedSpeaking s uid).1.opusEncoders =
      some { enc with destroyed := true } := by
    rw [hstate]
    exact mapGet_set_self uid { enc with destroyed := true } s.opusEncoders
  refine ⟨?_, ?_, ?_, hget, ?_, ?_⟩
  · rw [hstate]
    cases hos : mapGet uid s.opusStreams with
    | some sid => simp [hos, mapGet_delete_self]
    | none => simp [hos]
  · rw [hstate]
    cases hps : mapGet uid s.pcmStreams with
    | some sid => simp [hps, mapGet_delete_self]
    | none => simp [hps]
  · rw [hstate]
    exact mapSet_keys_of_isSome uid { enc with destroyed := true } s.opusEncoders
      (by simp [henc])
  · simp [stoppedSpeaking, henc]
  · intro fresh outcome hc
    exact decodeSection_of_isSome (stoppedSpeaking s uid).1 uid fresh outcome (Or.inl hc)
      { enc with destroyed := true } hget

/-- A receiver speaking state for identity 1: open opus stream 4, open pcm
stream 5, decoder 3 live. -/
def speakingState : RecvState :=
  { pcmListenerCount := 1, pcmStreams := [(1, 5)], opusStreams := [(1, 4)],
    opusEncoders := [(1, ⟨3, false⟩)], speakingTimeouts := [], disconnectTimer := none,
    listenerAttached := true, destroyed := false }

/-- Witness for C9: after `stoppedSpeaking` for identity 1 the stream
entries are gone, the decoder entry remains (destroyed), and the next
decoded packet does not fetch a new decoder. -/
theorem C9_encoder_survives_stop_witness :
    mapGet 1 (stoppedSpeaking speakingState 1).1.opusStreams = none ∧
      mapGet 1 (stoppedSpeaking speakingState 1).1.opusEncoders = some ⟨3, true⟩ ∧
      RAction.fetchEncoder 1 ∉
        (decodeSection (stoppedSpeaking speakingState 1).1 1 ⟨9, false⟩ DecodeOutcome.err).2 := by
  have h := C9_encoder_survives_stop speakingState 1 ⟨3, false⟩ (by decide)
  exact ⟨h.1, h.2.2.2.1, (h.2.2.2.2.2 ⟨9, false⟩ DecodeOutcome.err (by decide)).1⟩

end Receiver

namespace VoiceWS

/-- The readyState of the underlying WebSocket handle. -/
inductive ReadyState
  | connecting
  | openState
  | closed
  deriving DecidableEq, Repr

/-- The `VoiceWebSocket` connection state: attempt counter, dead flag,
transport handle (with its readyState) and heartbeat interval handle. -/
structure WSState where
  attempts : Nat
  dead : Bool
  ws : Option ReadyState
  heartbeatInterval : Option Nat
  deriving DecidableEq, Repr

/-- Observable side effects of the state machine: closing or opening a
transport, the too-many-attempts debug diagnostic, the two heartbeat
warnings, and the reconnect-required error. -/
inductive WSAction
  | closeTransport
  | openTransport
  | debugTooManyAttempts
  | warnClearMissing
  | warnOverwrite
  | emitReconnectError
  deriving DecidableEq, Repr

/-- `clearHeartbeat()`: warn when no interval exists, else clear it. -/
def clearHeartbeat (s : WSState) : WSState × List WSAction :=
  match s.heartbeatInterval with
  | none => (s, [WSAction.warnClearMissing])
  | some _ => ({ s with heartbeatInterval := none }, [])

/-- `reset()`: close the transport if present and not already closed, drop
the handle, then clear the heartbeat. -/
def reset (s : WSState) : WSState × List WSAction :=
  let t := match s.ws with
    | some rs => (({ s with ws := none } : WSState),
        if rs ≠ ReadyState.closed then [WSAction.closeTransport] else [])
    | none => (s, [])
  let c := clearHeartbeat t.1
  (c.1, t.2 ++ c.2)

/-- `connect()`: no-op when dead; tear down any existing transport first;
refuse with a debug diagnostic once five attempts were made; otherwise
count the attempt and open a fresh transport. -/
def connect (s : WSState) : WSState × List WSAction :=
  if s.dead then (s, [])
  else
    let t := if s.ws.isSome then reset s else (s, [])
    if 5 ≤ t.1.attempts then (t.1, t.2 ++ [WSAction.debugTooManyAttempts])
    else (({ t.1 with attempts := t.1.attempts + 1, ws := some ReadyState.connecting } : WSState),
      t.2 ++ [WSAction.openTransport])

/-- The state after `n` consecutive `connect()` calls on a fresh machine,
paired with the actions of the `n`-th call. -/
def connectTrace : Nat → WSState × List WSAction
  | 0 => (⟨0, false, none, none⟩, [])
  | n + 1 => connect (connectTrace n).1

/-- C6 (confirmed): six consecutive connect() calls from a fresh machine
open a transport on each of the first five (counting attempts, tearing
down the previous transport from the second call on) and the sixth emits
exactly one too-many-attempts diagnostic, opens no transport, and leaves
no transport open. -/
theorem C6_reconnect_ceiling :
    (∀ i ∈ [1, 2, 3, 4, 5],
      (connectTrace i).2.count WSAction.openTransport = 1 ∧
        (connectTrace i).2.count WSAction.debugTooManyAttempts = 0 ∧
        (connectTrace i).1.attempts = i ∧
        (connectTrace i).1.ws = some ReadyState.connecting) ∧
      (connectTrace 1).2.count WSAction.closeTransport = 0 ∧
      (∀ i ∈ [2, 3, 4, 5, 6], (connectTrace i).2.count WSAction.closeTransport = 1) ∧
      (connectTrace 6).2.count WSAction.debugTooManyAttempts = 1 ∧
      (connectTrace 6).2.count WSAction.openTransport = 0 ∧
      (connectTrace 6).1.ws = none ∧
      (connectTrace 6).1.attempts = 5 := by
  decide

/-- Witness for C6: the fifth call opens a transport; the sixth emits the
diagnostic. -/
theorem C6_reconnect_ceiling_witness :
    (connectTrace 5).2.count WSAction.openTransport = 1 ∧
      (connectTrace 6).2.count WSAction.debugTooManyAttempts = 1 :=
  ⟨(C6_reconnect_ceiling.1 5 (by decide)).1, C6_reconnect_ceiling.2.2.2.1⟩

/-- `setHeartbeat(interval)`: an invalid interval (modelled as 0) is
surfaced as an error and changes nothing; replacing a live interval warns;
then the repeating heartbeat timer is (re)armed. -/
def setHeartbeat (s : WSState) (interval : Nat) : WSState × List WSAction :=
  if interval = 0 then (s, [])
  else
    match s.heartbeatInterval with
    | some _ => (({ s with heartbeatInterval := some interval } : WSState),
        [WSAction.warnOverwrite])
    | none => (({ s with heartbeatInterval := some interval } : WSState), [])

/-- `onClose()`: triggered when the transport has moved to closed; reset,
and surface a reconnect-required error when not dead. -/
def onClose (s : WSState) : WSState × List WSAction :=
  let r := reset { s with ws := s.ws.map (fun _ => ReadyState.closed) }
  (r.1, r.2 ++ if !s.dead then [WSAction.emitReconnectError] else [])

/-- `sendHeartbeat()`: on a delivered heartbeat nothing changes; on a send
failure (transport absent, not open, or write error) the catch handler
warns and clears the heartbeat timer without re-arming it. -/
def sendHeartbeatStep (s : WSState) (ok : Bool) : WSState × List WSAction :=
  if s.ws = some ReadyState.openState ∧ ok = true then (s, [])
  else clearHeartbeat s

/-- `shutdown()`: mark the machine permanently dead and reset. -/
def shutdown (s : WSState) : WSState × List WSAction :=
  reset { s with dead := true }

/-- The state the constructor leaves behind: `connect()` on a fresh record,
then `dead = false`. -/
def initState : WSState := (connect ⟨0, false, none, none⟩).1

/-- The states the control-channel machine can reach: the constructor
state, followed by any sequence of connect calls, transport-open events,
valid info packets (only deliverable on an open transport), transport
closes, lower-layer connection errors, heartbeat timer fires (only while a
timer exists) and shutdown. -/
inductive Reachable : WSState → Prop
  | init : Reachable initState
  | connectStep {s : WSState} : Reachable s → Reachable (connect s).1
  | openStep {s : WSState} : Reachable s → s.ws = some ReadyState.connecting →
      Reachable { s with ws := some ReadyState.openState }
  | infoStep {s : WSState} {i : Nat} : Reachable s → s.ws = some ReadyState.openState →
      i ≠ 0 → Reachable (setHeartbeat s i).1
  | closeStep {s : WSState} : Reachable s → s.ws.isSome → Reachable (onClose s).1
  | errorConnStep {s : WSState} : Reachable s → Reachable (reset s).1
  | heartbeatStep {s : WSState} {ok : Bool} : Reachable s → s.heartbeatInterval.isSome →
      Reachable (sendHeartbeatStep s ok).1
  | shutdownStep {s : WSState} : Reachable s → Reachable (shutdown s).1

theorem reset_fields (s : WSState) :
    (reset s).1.ws = none ∧ (reset s).1.heartbeatInterval = none ∧
      (reset s).1.dead = s.dead ∧ (reset s).1.attempts = s.attempts := by
  cases hw : s.ws <;> cases hh : s.heartbeatInterval <;>
    simp [reset, clearHeartbeat, hw, hh]

/-- C7 (corrected): in every reachable state, a heartbeat timer exists only
if the transport is open and the machine is not dead (and a dead machine
has neither transport nor timer); the converse direction of the claimed
`iff` fails. -/
theorem C7_heartbeat_only_if_open_alive (s : WSState) (h : Reachable s) :
    (s.dead = true → s.ws = none ∧ s.heartbeatInterval = none) ∧
      (s.heartbeatInterval.isSome →
        s.ws = some ReadyState.openState ∧ s.dead = false) := by
  induction h with
  | init => decide
  | connectStep hr ih =>
    rename_i s'
    by_cases hd : s'.dead
    · simpa [connect, hd] using ih
    · have hhb : (if s'.ws.isSome then reset s' else (s', [])).1.heartbeatInterval = none ∧
          (if s'.ws.isSome then reset s' else (s', [])).1.dead = false := by
        by_cases hw : s'.ws.isSome
        · simp [hw, (reset_fields s').2.1, (reset_fields s').2.2.1, hd]
        · cases hh : s'.heartbeatInterval with
          | some i =>
            exact absurd (ih.2 (by simp [hh])).1 (by
              intro he
              exact hw (by simp [he]))
          | none => simp [hw, hh, hd]
      unfold connect
      rw [if_neg (by simp [hd])]
      by_cases hatt : 5 ≤ (if s'.ws.isSome then reset s' else (s', [])).1.attempts
      · rw [if_pos hatt]
        exact ⟨fun hdd => absurd hdd (by simp [hhb.2]), fun hs => absurd hs (by simp [hhb.1])⟩
      · rw [if_neg hatt]
        exact ⟨fun hdd => absurd hdd (by simp [hhb.2]), fun hs => absurd hs (by simp [hhb.1])⟩
  | openStep hr hws ih =>
    rename_i s'
    have hdf : s'.dead = false := by
      by_contra hdd
      rw [Bool.not_eq_false] at hdd
      rw [(ih.1 hdd).1] at hws
      exact Option.noConfusion hws
    have hhb : s'.heartbeatInterval = none := by
      cases hh : s'.heartbeatInterval with
      | some i =>
        rw [(ih.2 (by simp [hh])).1] at hws
        exact absurd (Option.some.inj hws) (by intro he; exact ReadyState.noConfusion he)
      | none => rfl
    exact ⟨fun hdd => by simp [hdf] at hdd, fun _ => ⟨rfl, hdf⟩⟩
  | infoStep hr hws hi ih =>
    rename_i s' i
    have hdf : s'.dead = false := by
      by_contra hdd
      rw [Bool.not_eq_false] at hdd
      rw [(ih.1 hdd).1] at hws
      exact Option.noConfusion hws
    have hout : (setHeartbeat s' i).1 =
        { s' with heartbeatInterval := some i } := by
      cases hh : s'.heartbeatInterval <;> simp [setHeartbeat, hi, hh]
    rw [hout]
    exact ⟨fun hdd => by simp [hdf] at hdd, fun _ => ⟨hws, hdf⟩⟩
  | closeStep hr hws ih =>
    rename_i s'
    have hout : (onClose s').1 =
        (reset { s' with ws := s'.ws.map (fun _ => ReadyState.closed) }).1 := rfl
    have h1 := reset_fields { s' with ws := s'.ws.map (fun _ => ReadyState.closed) }
    rw [hout]
    exact ⟨fun _ => ⟨h1.1, h1.2.1⟩, fun hs => by rw [h1.2.1] at hs; simp at hs⟩
  | errorConnStep hr ih =>
    rename_i s'
    have h1 := reset_fields s'
    exact ⟨fun _ => ⟨h1.1, h1.2.1⟩, fun hs => by rw [h1.2.1] at hs; simp at hs⟩
  | heartbeatStep hr hhb ih =>
    rename_i s' ok
    by_cases hc : s'.ws = some ReadyState.openState ∧ ok = true
    · simpa [sendHeartbeatStep, hc] using ih
    · have hout : (sendHeartbeatStep s' ok).1 = (clearHeartbeat s').1 := by
        simp [sendHeartbeatStep, hc]
      have hcb : (clearHeartbeat s').1.heartbeatInterval = none ∧
          (clearHeartbeat s').1.ws = s'.ws ∧ (clearHeartbeat s').1.dead = s'.dead := by
        cases hh : s'.heartbeatInterval <;> simp [clearHeartbeat, hh]
      rw [hout]
      refine ⟨fun hdd => ⟨?_, hcb.1⟩, fun hs => ?_⟩
      · rw [hcb.2.1]
        exact (ih.1 (by rwa [hcb.2.2] at hdd)).1
      · rw [hcb.1] at hs
        simp at hs
  | shutdownStep hr ih =>
    rename_i s'
    have hout : (shutdown s').1 = (reset { s' with dead := true }).1 := rfl
    have h1 := reset_fields { s' with dead := true }
    rw [hout]
    exact ⟨fun _ => ⟨h1.1, h1.2.1⟩, fun hs => by rw [h1.2.1] at hs; simp at hs⟩

/-- C7 as stated is false: right after the transport opens — before the
server's info packet arrives — the machine is reachable, alive, has an
open transport and has no heartbeat timer, refuting the claimed `iff` in
the open-and-alive-implies-timer direction. -/
theorem C7_open_without_heartbeat_counterexample :
    Reachable { initState with ws := some ReadyState.openState } ∧
      ({ initState with ws := some ReadyState.openState } : WSState).ws =
        some ReadyState.openState ∧
      ({ initState with ws := some ReadyState.openState } : WSState).dead = false ∧
      ({ initState with ws := some ReadyState.openState } : WSState).heartbeatInterval =
        none :=
  ⟨Reachable.openStep Reachable.init (by decide), by decide, by decide, by decide⟩

/-- Witness for C7: the reachable state holding a heartbeat timer (armed by
a valid info packet after open) indeed has an open transport and is not
dead. -/
theorem C7_heartbeat_witness :
    (setHeartbeat { initState with ws := some ReadyState.openState } 5).1.ws =
        some ReadyState.openState ∧
      (setHeartbeat { initState with ws := some ReadyState.openState } 5).1.dead = false :=
  (C7_heartbeat_only_if_open_alive _
      (Reachable.infoStep (Reachable.openStep Reachable.init (by decide)) (by decide)
        (by decide))).2
    (by decide)

/-- A control packet as handed to `sendPacket`: `serialized` is the result
of `JSON.stringify` on it — an error when the packet cannot be
serialized. -/
structure Packet where
  serialized : Except String String

/-- `send(data)`: reject without touching the transport unless the handle
exists and its readyState is open; otherwise hand the data to the
transport, whose write callback may still fail. The second component lists
the payloads actually handed to the transport. -/
def send (ws : Option ReadyState) (data : String) (callbackError : Option String) :
    Except String String × List String :=
  if ws ≠ some ReadyState.openState then
    (Except.error ("Voice websocket not open to send " ++ data ++ "."), [])
  else
    match callbackError with
    | some e => (Except.error e, [data])
    | none => (Except.ok data, [data])

/-- `sendPacket(packet)`: `JSON.stringify` first — a serialization failure
yields a rejected promise without any transport interaction — then
delegate to `send`. -/
def sendPacket (ws : Option ReadyState) (p : Packet) (callbackError : Option String) :
    Except String String × List String :=
  match p.serialized with
  | Except.error e => (Except.error e, [])
  | Except.ok text => send ws text callbackError

/-- C10 (confirmed): an unserializable packet makes `sendPacket` reject
without attempting any transport send, and `send` rejects with nothing
handed to the transport whenever the handle is absent or not open. -/
theorem C10_send_guards (ws : Option ReadyState) (p : Packet) (cb : Option String)
    (data : String) :
    (∀ e, p.serialized = Except.error e → sendPacket ws p cb = (Except.error e, [])) ∧
      (ws ≠ some ReadyState.openState →
        send ws data cb =
          (Except.error ("Voice websocket not open to send " ++ data ++ "."), [])) := by
  constructor
  · intro e he
    simp [sendPacket, he]
  · intro hw
    simp [send, hw]

/-- Witness for C10: a packet whose serialization fails is rejected with no
transport write, and a send on an absent handle is rejected with no
transport write. -/
theorem C10_send_guards_witness :
    sendPacket none ⟨Except.error "circular structure"⟩ none =
        (Except.error "circular structure", []) ∧
      send none "x" none =
        (Except.error "Voice websocket not open to send x.", []) :=
  ⟨(C10_send_guards none ⟨Except.error "circular structure"⟩ none "x").1
      "circular structure" rfl,
    (C10_send_guards none ⟨Except.error "circular structure"⟩ none "x").2 (by decide)⟩

end VoiceWS
